import Mathlib

/-!
Verification of the TMKP Phase-1 edge quality-control pipeline.

The definitions below are a shallow embedding of the Python sources
`phase1.py` and `api_functions.py`: pure functions become Lean functions,
dictionaries become association lists or total functions with an explicit
default, and the regular-expression word-boundary search of the text
matcher is modelled character-by-character (ASCII rendering of the regex
word class; all inputs exercised here are ASCII).
-/

namespace TMKP

/-- Characters counted as word characters by the text matcher
(the regex class used in `find_synonyms_in_text`). -/
def isWordChar (c : Char) : Bool := c.isAlphanum || c == '_'

/-- Lower-cased character list of a string (`str.lower()` on ASCII input). -/
def lowerChars (s : String) : List Char := s.toList.map Char.toLower

/-- Whether index `i` of `t` holds a word character (out of range counts as
non-word). -/
def wordAt (t : List Char) (i : Nat) : Bool :=
  match t.get? i with
  | some c => isWordChar c
  | none => false

/-- Word boundary at position `p` of `t` (0 ≤ p ≤ length): the word-ness of
the character before `p` differs from the word-ness of the character at `p`,
positions outside the string counting as non-word. -/
def boundaryAt (t : List Char) (p : Nat) : Bool :=
  (if p == 0 then false else wordAt t (p - 1)) != wordAt t p

/-- The pattern `\b s \b` (with `s` escaped to a literal) matches `t` at
position `i`. -/
def matchWordAt (t s : List Char) (i : Nat) : Bool :=
  ((t.drop i).take s.length == s) && boundaryAt t i && boundaryAt t (i + s.length)

/-- `re.search` of the pattern `\b s \b` over `t`: some position matches. -/
def wholeWordMatch (t s : List Char) : Bool :=
  (List.range (t.length + 1)).any (fun i => matchWordAt t s i)

/-- `EdgeClassifier.find_synonyms_in_text` (phase1.py): the synonyms that
occur in `text` as case-insensitive whole-word matches; empty candidate
strings are skipped, empty text yields no matches. -/
def find_synonyms_in_text (text : String) (synonyms : List String) : List String :=
  if text == "" || synonyms.isEmpty then []
  else
    synonyms.filter (fun synonym =>
      synonym != "" && wholeWordMatch (lowerChars text) (lowerChars synonym))

/-- A candidate entity returned by reverse name lookup (the fields the
classification code reads). -/
structure LookupResult where
  curie : String
  label : String
  synonyms : List String
deriving DecidableEq, Repr

/-- `get_exact_matches` (api_functions.py): returns all lookup results
without filtering (`lookup_results if lookup_results else []`). -/
def get_exact_matches (lookup_results : List LookupResult) : List LookupResult :=
  if lookup_results.isEmpty then [] else lookup_results

/-- The candidates whose preferred label equals the synonym,
case-insensitively (the inner loop of the preferred-name logic). -/
def preferred_matches (synonym : String) (exact_matches : List LookupResult) :
    List LookupResult :=
  exact_matches.filter (fun m => lowerChars synonym == lowerChars m.label)

/-- One iteration of the loop body of
`EdgeClassifier.check_ambiguous_matches_with_cache` (phase1.py): the
accumulator carries `(is_ambiguous, lookup_data)`. -/
def check_ambiguous_step (lookup_cache : String → List LookupResult)
    (acc : Bool × List (String × List LookupResult)) (synonym : String) :
    Bool × List (String × List LookupResult) :=
  let lookup_results := lookup_cache synonym
  if lookup_results.isEmpty then acc
  else
    let exact_matches := get_exact_matches lookup_results
    if 1 < exact_matches.length then
      let preferred := preferred_matches synonym exact_matches
      if preferred.length == 1 then (acc.1, acc.2 ++ [(synonym, preferred)])
      else (true, acc.2 ++ [(synonym, exact_matches)])
    else (acc.1, acc.2 ++ [(synonym, exact_matches)])

/-- `EdgeClassifier.check_ambiguous_matches_with_cache` (phase1.py):
enhanced ambiguity checking over cached lookup results with the
preferred-name logic. The cache is a total function, absent keys mapping to
`[]` (`lookup_cache.get(synonym, [])`). -/
def check_ambiguous_matches_with_cache (synonyms : List String)
    (lookup_cache : String → List LookupResult) :
    Bool × List (String × List LookupResult) :=
  synonyms.foldl (check_ambiguous_step lookup_cache) (false, [])

/-- A single synonym trips the ambiguity flag: its cached list is nonempty,
has more than one entry, and the number of candidates carrying it as their
preferred label is different from one. -/
def synonym_is_ambiguous (lookup_cache : String → List LookupResult)
    (synonym : String) : Bool :=
  let lookup_results := lookup_cache synonym
  if lookup_results.isEmpty then false
  else
    let exact_matches := get_exact_matches lookup_results
    if 1 < exact_matches.length then
      !((preferred_matches synonym exact_matches).length == 1)
    else false

/-- An edge as the classifier reads it: subject and object CURIEs plus the
supporting text (`None` for an absent `sentences` field). -/
structure Edge where
  subject : String
  object : String
  sentences : Option String
deriving DecidableEq, Repr

/-- The debug-info dictionary built by `classify_edge_with_cache`; fields
that the code only sets on some paths are `Option`s. -/
structure DebugInfo where
  subject_curie : String
  object_curie : String
  edge_text : String
  reason : Option String
  subject_synonyms_found : Option (List String)
  subject_ambiguous : Option Bool
  object_synonyms_found : Option (List String)
  object_ambiguous : Option Bool
deriving DecidableEq, Repr

/-- Helper assembling the debug dictionary of `classify_edge_with_cache`. -/
def mkDebug (edge : Edge) (reason : Option String)
    (sdbg odbg : Option (List String × Bool)) : DebugInfo :=
  ⟨edge.subject, edge.object, edge.sentences.getD "NA", reason,
    sdbg.map Prod.fst, sdbg.map Prod.snd, odbg.map Prod.fst, odbg.map Prod.snd⟩

/-- `EdgeClassifier._check_entity_in_text_with_cache` (phase1.py): returns
whether the entity counts as found (some synonym in text and not ambiguous)
together with the debug fields it records (only when synonyms were found). -/
def check_entity_in_text_with_cache (text : String) (synonyms : List String)
    (lookup_cache : String → List LookupResult) :
    Bool × Option (List String × Bool) :=
  let found_synonyms := find_synonyms_in_text text synonyms
  if found_synonyms.isEmpty then (false, none)
  else
    let is_ambiguous := (check_ambiguous_matches_with_cache found_synonyms lookup_cache).1
    (!is_ambiguous, some (found_synonyms, is_ambiguous))

/-- `EdgeClassifier.classify_edge_with_cache` (phase1.py): classify an edge
using cached lookup results; `synonyms_data` is read keyed by the edge's raw
subject/object CURIEs (`self.synonyms_data.get(edge.get('subject'), [])`). -/
def classify_edge_with_cache (edge : Edge) (lookup_cache : String → List LookupResult)
    (synonyms_data : String → List String) : String × DebugInfo :=
  match edge.sentences with
  | none => ("bad", mkDebug edge (some "No supporting text available") none none)
  | some text =>
    if text == "" || text == "NA" then
      ("bad", mkDebug edge (some "No supporting text available") none none)
    else
      let subject_synonyms := synonyms_data edge.subject
      let object_synonyms := synonyms_data edge.object
      if subject_synonyms.isEmpty || object_synonyms.isEmpty then
        ("bad", mkDebug edge (some "Missing synonyms for subject or object") none none)
      else
        let subjectRes := check_entity_in_text_with_cache text subject_synonyms lookup_cache
        let objectRes := check_entity_in_text_with_cache text object_synonyms lookup_cache
        if subjectRes.1 && objectRes.1 then
          ("good", mkDebug edge none subjectRes.2 objectRes.2)
        else if !subjectRes.1 && !objectRes.1 then
          ("bad", mkDebug edge (some "Neither subject nor object found in text")
            subjectRes.2 objectRes.2)
        else if !subjectRes.1 then
          ("bad", mkDebug edge (some "Subject not found in text") subjectRes.2 objectRes.2)
        else
          ("bad", mkDebug edge (some "Object not found in text") subjectRes.2 objectRes.2)

/-- `EdgeClassifier.write_edge_result` (phase1.py): which output stream a
classification is routed to. -/
def output_bucket (classification : String) : String :=
  if classification == "good" then "good_edges"
  else if classification == "bad" then "bad_edges"
  else "ambiguous_edges"

/-! ### The final stage-4 classifier

The repository's tests (`test_stage4_preferred_label_logic.py`,
`test_doxorubicin_edge.py`, `tests/test_integration_classification_constants.py`)
rely on a module-level disambiguation engine `get_winning_entity_for_synonym`
and a module-level classifier
`classify_edge(edge, lookup_cache, normalized_entities, synonym_sets)` from
`phase1`; that version of `phase1.py` is not among the sources here, only
its tests and callers are.  The definitions in this section are therefore
modelled from the specification (sections 4.5 and 4.6), whose behaviour the
surviving tests corroborate. -/

/-- Modelled from the spec: the Disambiguation Engine
`get_winning_entity_for_synonym`, absent from the available `phase1.py`
(only its tests import it).  Spec 4.5: a single candidate wins; otherwise
candidates are partitioned into PREFERRED (label equals the synonym,
case-insensitively) and REGULAR (the synonym appears only in the synonym
list); exactly one PREFERRED wins, more than one is ambiguous, zero
PREFERRED with exactly one REGULAR wins, anything else is ambiguous. -/
def get_winning_entity_for_synonym (synonym : String) (candidates : List LookupResult) :
    Option LookupResult :=
  match candidates with
  | [c] => some c
  | _ =>
    let preferred := candidates.filter (fun c => lowerChars c.label == lowerChars synonym)
    let regular := candidates.filter (fun c =>
      lowerChars c.label != lowerChars synonym &&
      c.synonyms.any (fun s => lowerChars s == lowerChars synonym))
    if preferred.length == 1 then preferred.head?
    else if 1 < preferred.length then none
    else if regular.length == 1 then regular.head?
    else none

/-- Which role of an edge a classification reason refers to. -/
inductive Role where
  | subject
  | object
deriving DecidableEq, Repr

/-- The two flavours of ambiguity the spec distinguishes: several
candidates claim the synonym as their preferred label, or no candidate does
and several carry it as a regular synonym. -/
inductive AmbiguityKind where
  | multiplePreferred
  | multipleRegularNoPreferred
deriving DecidableEq, Repr

/-- The classification reason recorded in the final classifier's debug
trace, structured: each constructor names what the reason string reports. -/
inductive Reason where
  | noSupportingText
  | missingNormalization
  | missingSynonyms
  | notFoundInText (role : Role)
  | ambiguousSynonym (synonym : String) (kind : AmbiguityKind)
  | identityMismatch (synonym : String) (expected actual : String)
  | passed
deriving DecidableEq, Repr

/-- Normalized-entity record: the preferred identifier the classifier
reads out of `normalized_entities[curie]['id']['identifier']`. -/
structure NormalizedEntity where
  identifier : String
deriving DecidableEq, Repr

/-- Which kind of ambiguity a candidate list exhibits for a synonym. -/
def ambiguity_kind (synonym : String) (candidates : List LookupResult) : AmbiguityKind :=
  if 1 < (candidates.filter (fun c => lowerChars c.label == lowerChars synonym)).length then
    AmbiguityKind.multiplePreferred
  else AmbiguityKind.multipleRegularNoPreferred

/-- First synonym of the list that is present in the cache and on which the
engine reports ambiguity (returns it with its cached candidate list). -/
def first_ambiguous_synonym (lookup_cache : String → Option (List LookupResult)) :
    List String → Option (String × List LookupResult)
  | [] => none
  | s :: rest =>
    match lookup_cache s with
    | some cs =>
      match get_winning_entity_for_synonym s cs with
      | none => some (s, cs)
      | some _ => first_ambiguous_synonym lookup_cache rest
    | none => first_ambiguous_synonym lookup_cache rest

/-- First synonym of the list whose engine winner carries an identifier
different from the expected one (returns it with the actual identifier). -/
def first_identity_mismatch (lookup_cache : String → Option (List LookupResult))
    (expected : String) : List String → Option (String × String)
  | [] => none
  | s :: rest =>
    match lookup_cache s with
    | some cs =>
      match get_winning_entity_for_synonym s cs with
      | some w =>
        if w.curie = expected then first_identity_mismatch lookup_cache expected rest
        else some (s, w.curie)
      | none => first_identity_mismatch lookup_cache expected rest
    | none => first_identity_mismatch lookup_cache expected rest

/-- Supporting text counts as missing: empty, only whitespace, or the
sentinel NA (spec 4.6 step 1). -/
def no_supporting_text (sentences : Option String) : Bool :=
  match sentences with
  | none => true
  | some t => t.toList.all Char.isWhitespace || t == "NA"

/-- Modelled from the spec: the final stage-4 classifier
`classify_edge(edge, lookup_cache, normalized_entities, synonym_sets)`,
absent from the available `phase1.py` (only its tests import it).  It
follows spec 4.6 steps 1-7: missing-text, missing-normalization and
missing-synonyms checks, text matching per role, the disambiguation engine
over every found synonym present in the cache, then the identity check of
each winner against the expected normalized identifier for its role. -/
def classify_edge (edge : Edge) (lookup_cache : String → Option (List LookupResult))
    (normalized_entities : String → Option NormalizedEntity)
    (synonym_sets : String → Option (List String)) : String × Reason :=
  if no_supporting_text edge.sentences then ("bad", Reason.noSupportingText)
  else
    match normalized_entities edge.subject, normalized_entities edge.object with
    | some subjNorm, some objNorm =>
      (match synonym_sets subjNorm.identifier, synonym_sets objNorm.identifier with
      | some subjSyns, some objSyns =>
        if subjSyns.isEmpty || objSyns.isEmpty then ("bad", Reason.missingSynonyms)
        else
          let text := edge.sentences.getD ""
          let subjFound := find_synonyms_in_text text subjSyns
          let objFound := find_synonyms_in_text text objSyns
          if subjFound.isEmpty then ("bad", Reason.notFoundInText Role.subject)
          else if objFound.isEmpty then ("bad", Reason.notFoundInText Role.object)
          else
            match first_ambiguous_synonym lookup_cache (subjFound ++ objFound) with
            | some (s, cs) => ("ambiguous", Reason.ambiguousSynonym s (ambiguity_kind s cs))
            | none =>
              match first_identity_mismatch lookup_cache subjNorm.identifier subjFound with
              | some (s, actual) =>
                ("bad", Reason.identityMismatch s subjNorm.identifier actual)
              | none =>
                match first_identity_mismatch lookup_cache objNorm.identifier objFound with
                | some (s, actual) =>
                  ("bad", Reason.identityMismatch s objNorm.identifier actual)
                | none => ("good", Reason.passed)
      | _, _ => ("bad", Reason.missingSynonyms))
    | _, _ => ("bad", Reason.missingNormalization)

/-! ### Retry policy (`api_request_with_retry`, api_functions.py) -/

/-- `needle` occurs contiguously inside `haystack` (Python's `in` on
strings). -/
def containsSub (haystack needle : List Char) : Bool :=
  (List.range (haystack.length + 1)).any
    (fun i => (haystack.drop i).take needle.length == needle)

/-- The retry test of `api_request_with_retry`: the error message contains
one of the three literal substrings the code checks for. -/
def retryable_error (e : String) : Bool :=
  containsSub e.toList "502 Server Error".toList ||
  containsSub e.toList "503 Server Error".toList ||
  containsSub e.toList "500 Server Error".toList

/-- What the spec calls a 5xx-class server error message: it embeds
"c Server Error" for some status code 500 ≤ c < 600 (the format
`requests.raise_for_status` produces). -/
def is_5xx_class (e : String) : Prop :=
  ∃ c : Nat, 500 ≤ c ∧ c < 600 ∧
    containsSub e.toList (toString c ++ " Server Error").toList = true

/-- The retry loop of `api_request_with_retry` from a given attempt number
with a given number of retries still allowed; the call at attempt `i` is
modelled by `func i`, and the backoff delays that would be slept are
collected (`base_delay * 2 ** attempt + jitter`). -/
def retry_from (func : Nat → Except String α) (base_delay : ℚ) (jitter : Nat → ℚ)
    (attempt : Nat) : Nat → Except String α × Nat × List ℚ
  | 0 =>
    match func attempt with
    | Except.ok v => (Except.ok v, attempt + 1, [])
    | Except.error e => (Except.error e, attempt + 1, [])
  | remaining + 1 =>
    match func attempt with
    | Except.ok v => (Except.ok v, attempt + 1, [])
    | Except.error e =>
      if retryable_error e then
        let rec_result := retry_from func base_delay jitter (attempt + 1) remaining
        (rec_result.1, rec_result.2.1, (base_delay * 2 ^ attempt + jitter attempt) :: rec_result.2.2)
      else (Except.error e, attempt + 1, [])

/-- `api_request_with_retry` (api_functions.py): run `func`, retrying up to
`max_retries` additional times with exponential backoff (the jitter draw is
an oracle argument), but only when the error message matches
`retryable_error`; returns the result, the number of attempts made and the
delays slept. -/
def api_request_with_retry (func : Nat → Except String α) (max_retries : Nat)
    (base_delay : ℚ) (jitter : Nat → ℚ) : Except String α × Nat × List ℚ :=
  retry_from func base_delay jitter 0 max_retries

/-! ### Batch cache construction (phase1.py) -/

/-- Per-edge body of `EdgeClassifier.collect_all_synonyms_from_batch`
(phase1.py): for an edge with usable text, each synonym of its own subject
and object entities that the text matcher finds in that edge's text is added
to the accumulated set. -/
def collect_batch_step (synonyms_data : String → List String)
    (acc : List String) (edge : Edge) : List String :=
  match edge.sentences with
  | none => acc
  | some text =>
    if text == "" || text == "NA" then acc
    else
      (synonyms_data edge.subject ++ synonyms_data edge.object).foldl
        (fun acc2 s =>
          if (find_synonyms_in_text text [s]).isEmpty then acc2 else acc2.insert s)
        acc

/-- `EdgeClassifier.collect_all_synonyms_from_batch` (phase1.py): the set of
synonyms collected for bulk lookup (the single 'default' group), modelled as
a duplicate-free list built by insertion. -/
def collect_all_synonyms_from_batch (edges : List Edge)
    (synonyms_data : String → List String) : List String :=
  edges.foldl (collect_batch_step synonyms_data) []

/-- `EdgeClassifier.execute_bulk_lookups` (phase1.py), success path: for
each nonempty synonym group issue one bulk lookup (the bulk service is the
oracle argument) and store every returned `(synonym, results)` pair in the
cache verbatim.  The `APIException` fallback to individual lookups is not
modelled; it likewise stores raw, unfiltered results. -/
def execute_bulk_lookups (synonym_groups : List (String × List String))
    (bulk : List String → List (String × List LookupResult)) :
    List (String × List LookupResult) :=
  synonym_groups.foldl (fun cache g =>
    if g.2.isEmpty then cache else cache ++ bulk g.2) []

/-! ## Helper lemmas -/

theorem wholeWordMatch_nil (s : List Char) : wholeWordMatch [] s = false := by
  unfold wholeWordMatch
  simp only [List.length_nil, Nat.zero_add]
  rw [show List.range 1 = [0] from rfl]
  simp only [List.any_cons, List.any_nil, Bool.or_false]
  unfold matchWordAt boundaryAt wordAt
  simp

theorem find_synonyms_mem_iff (text : String) (synonyms : List String) (s : String) :
    s ∈ find_synonyms_in_text text synonyms ↔
      s ∈ synonyms ∧ s ≠ "" ∧
        wholeWordMatch (lowerChars text) (lowerChars s) = true := by
  unfold find_synonyms_in_text
  split
  · rename_i h
    rw [Bool.or_eq_true] at h
    rcases h with h | h
    · simp only [beq_iff_eq] at h
      subst h
      rw [show lowerChars "" = [] from rfl]
      simp [wholeWordMatch_nil]
    · rw [List.isEmpty_iff] at h
      subst h
      simp
  · rw [List.mem_filter]
    simp only [Bool.and_eq_true, bne_iff_ne, ne_eq]

theorem find_synonyms_sublist (text : String) (synonyms : List String) :
    (find_synonyms_in_text text synonyms).Sublist synonyms := by
  unfold find_synonyms_in_text
  split
  · exact List.nil_sublist synonyms
  · exact List.filter_sublist synonyms

/-! ## Claim theorems -/

/-- Claim C5 fails as stated: the result can contain duplicates when the
candidate list does.  At text "protein" with candidate list
["protein", "protein"], the matcher returns both copies. -/
theorem claim_C5_counterexample :
    find_synonyms_in_text "protein" ["protein", "protein"] = ["protein", "protein"] ∧
      ¬ (find_synonyms_in_text "protein" ["protein", "protein"]).Nodup := by
  constructor
  · rfl
  · decide

/-- Claim C5 (corrected): find_synonyms_in_text returns exactly the
candidates that occur in the text as case-insensitive whole-word matches
(never "tein" inside "protein"; "doxorubicin" is found in "DOXORUBICIN");
empty candidates are skipped and empty text yields no matches; the result
is a sublist of the candidates (original casing and order preserved), hence
duplicate-free whenever the candidate list is duplicate-free — but not in
general. -/
theorem claim_C5_text_matcher :
    (∀ (text : String) (synonyms : List String) (s : String),
        s ∈ find_synonyms_in_text text synonyms ↔
          s ∈ synonyms ∧ s ≠ "" ∧
            wholeWordMatch (lowerChars text) (lowerChars s) = true) ∧
    (∀ (text : String) (synonyms : List String),
        (find_synonyms_in_text text synonyms).Sublist synonyms) ∧
    (∀ (text : String) (synonyms : List String),
        synonyms.Nodup → (find_synonyms_in_text text synonyms).Nodup) ∧
    find_synonyms_in_text "the protein kinase" ["protein", "tein", "kinase"]
      = ["protein", "kinase"] ∧
    find_synonyms_in_text "DOXORUBICIN" ["doxorubicin"] = ["doxorubicin"] ∧
    (∀ synonyms : List String, find_synonyms_in_text "" synonyms = []) := by
  refine ⟨find_synonyms_mem_iff, find_synonyms_sublist, ?_, ?_, ?_, ?_⟩
  · intro text synonyms h
    exact h.sublist (find_synonyms_sublist text synonyms)
  · rfl
  · rfl
  · intro synonyms
    rfl

theorem check_step_fst (lookup_cache : String → List LookupResult)
    (acc : Bool × List (String × List LookupResult)) (s : String) :
    (check_ambiguous_step lookup_cache acc s).1
      = (acc.1 || synonym_is_ambiguous lookup_cache s) := by
  rcases acc with ⟨b, d⟩
  unfold check_ambiguous_step synonym_is_ambiguous
  dsimp only
  split
  · simp_all
  · split
    · split <;> simp_all
    · simp_all

theorem check_foldl_fst (lookup_cache : String → List LookupResult)
    (synonyms : List String) (acc : Bool × List (String × List LookupResult)) :
    (synonyms.foldl (check_ambiguous_step lookup_cache) acc).1
      = (acc.1 || synonyms.any (synonym_is_ambiguous lookup_cache)) := by
  induction synonyms generalizing acc with
  | nil => simp
  | cons s rest ih =>
    rw [List.foldl_cons, ih, check_step_fst, List.any_cons, Bool.or_assoc]

/-- Claim C1 (confirmed): the flag returned by the cached ambiguity check is
the disjunction of the per-synonym ambiguity tests; for a cached candidate
list with two or more entries a synonym is flagged ambiguous exactly when
the number of candidates whose preferred label equals it case-insensitively
is different from one; when exactly one candidate's label matches, that
candidate alone is kept as the winner; and a singleton candidate list is
never ambiguous, that entry being kept as the winner. -/
theorem claim_C1_preferred_label_hierarchy :
    (∀ (synonyms : List String) (lookup_cache : String → List LookupResult),
        (check_ambiguous_matches_with_cache synonyms lookup_cache).1
          = synonyms.any (synonym_is_ambiguous lookup_cache)) ∧
    (∀ (s : String) (lookup_cache : String → List LookupResult),
        2 ≤ (get_exact_matches (lookup_cache s)).length →
        (synonym_is_ambiguous lookup_cache s = true ↔
          (preferred_matches s (get_exact_matches (lookup_cache s))).length ≠ 1)) ∧
    (∀ (s : String) (lookup_cache : String → List LookupResult),
        2 ≤ (get_exact_matches (lookup_cache s)).length →
        (preferred_matches s (get_exact_matches (lookup_cache s))).length = 1 →
        check_ambiguous_matches_with_cache [s] lookup_cache
          = (false, [(s, preferred_matches s (get_exact_matches (lookup_cache s)))])) ∧
    (∀ (s : String) (lookup_cache : String → List LookupResult) (c : LookupResult),
        lookup_cache s = [c] →
        check_ambiguous_matches_with_cache [s] lookup_cache = (false, [(s, [c])])) := by
  refine ⟨?_, ?_, ?_, ?_⟩
  · intro synonyms lookup_cache
    unfold check_ambiguous_matches_with_cache
    rw [check_foldl_fst]
    simp
  · intro s lookup_cache hlen
    have hne : (lookup_cache s).isEmpty = false := by
      unfold get_exact_matches at hlen
      rcases h : (lookup_cache s).isEmpty with _ | _
      · rfl
      · rw [h] at hlen
        simp at hlen
    unfold synonym_is_ambiguous
    dsimp only
    rw [hne]
    simp only [Bool.false_eq_true, if_false]
    rw [if_pos (by omega)]
    simp [Nat.lt_iff_add_one_le]
  · intro s lookup_cache hlen hpref
    have hne : (lookup_cache s).isEmpty = false := by
      unfold get_exact_matches at hlen
      rcases h : (lookup_cache s).isEmpty with _ | _
      · rfl
      · rw [h] at hlen
        simp at hlen
    unfold check_ambiguous_matches_with_cache
    rw [List.foldl_cons, List.foldl_nil]
    unfold check_ambiguous_step
    dsimp only
    rw [hne]
    simp only [Bool.false_eq_true, if_false]
    rw [if_pos (by omega), if_pos (by simpa using hpref)]
    simp
  · intro s lookup_cache c hc
    unfold check_ambiguous_matches_with_cache
    rw [List.foldl_cons, List.foldl_nil]
    unfold check_ambiguous_step get_exact_matches
    dsimp only
    rw [hc]
    simp

/-- Witness for C1: the hypotheses discharged on the FSH candidates
(two entries, both labelled FSH: ambiguous) and on a singleton DLK1 list. -/
theorem claim_C1_witness :
    (2 ≤ (get_exact_matches ((fun _ => [(⟨"GTOPDB:4386", "FSH", ["FSH"]⟩ : LookupResult),
        ⟨"GTOPDB:4387", "FSH", ["FSH"]⟩]) "FSH")).length ∧
      synonym_is_ambiguous (fun _ => [(⟨"GTOPDB:4386", "FSH", ["FSH"]⟩ : LookupResult),
        ⟨"GTOPDB:4387", "FSH", ["FSH"]⟩]) "FSH" = true) ∧
    check_ambiguous_matches_with_cache ["DLK1"]
        (fun _ => [(⟨"NCBIGene:8788", "DLK1", ["DLK1"]⟩ : LookupResult)])
      = (false, [("DLK1", [⟨"NCBIGene:8788", "DLK1", ["DLK1"]⟩])]) := by
  refine ⟨⟨by decide, ?_⟩, ?_⟩
  · rw [claim_C1_preferred_label_hierarchy.2.1 "FSH" _ (by decide)]
    decide
  · exact claim_C1_preferred_label_hierarchy.2.2.2 "DLK1" _ _ rfl

/-- Claim C10 (confirmed): classification with cached lookups is a pure
function of the edge contents, the cache contents and the synonym data —
equal inputs give equal classification label and debug trace. -/
theorem claim_C10_determinism :
    ∀ (e₁ e₂ : Edge) (c₁ c₂ : String → List LookupResult)
      (s₁ s₂ : String → List String),
      e₁ = e₂ → (∀ k, c₁ k = c₂ k) → (∀ k, s₁ k = s₂ k) →
      classify_edge_with_cache e₁ c₁ s₁ = classify_edge_with_cache e₂ c₂ s₂ := by
  intro e₁ e₂ c₁ c₂ s₁ s₂ he hc hs
  subst he
  rw [funext hc, funext hs]

/-- Witness for C10: two syntactically different but pointwise-equal caches
classify the same edge identically. -/
theorem claim_C10_witness :
    classify_edge_with_cache ⟨"CHEBI:28748", "NCBIGene:7515", some "doxorubicin and XRCC1"⟩
        (fun k => if k == "zzz" then [] else []) (fun _ => ["doxorubicin"])
      = classify_edge_with_cache ⟨"CHEBI:28748", "NCBIGene:7515", some "doxorubicin and XRCC1"⟩
        (fun _ => []) (fun _ => ["doxorubicin"]) :=
  claim_C10_determinism _ _ _ _ _ _ rfl
    (fun k => by rcases h : (k == "zzz") with _ | _ <;> simp [h])
    (fun _ => rfl)

theorem isWordChar_toLower_ws (c : Char) (h : c.isWhitespace = true) :
    isWordChar (Char.toLower c) = false := by
  simp only [Char.isWhitespace, Bool.or_eq_true, decide_eq_true_eq] at h
  rcases h with ((h | h) | h) | h <;> subst h <;> decide

theorem wordAt_ws (t : List Char) (h : ∀ c ∈ t, c.isWhitespace = true) (i : Nat) :
    wordAt (t.map Char.toLower) i = false := by
  unfold wordAt
  rcases hg : (t.map Char.toLower).get? i with _ | c'
  · rfl
  · rw [List.get?_map] at hg
    rcases hc : t.get? i with _ | c
    · rw [hc] at hg
      cases hg
    · rw [hc] at hg
      cases hg
      exact isWordChar_toLower_ws c (h c (List.get?_mem hc))

theorem boundaryAt_ws (t : List Char) (h : ∀ c ∈ t, c.isWhitespace = true) (p : Nat) :
    boundaryAt (t.map Char.toLower) p = false := by
  unfold boundaryAt
  rw [wordAt_ws t h, wordAt_ws t h]
  simp

theorem wholeWordMatch_ws (text : String) (h : ∀ c ∈ text.toList, c.isWhitespace = true)
    (s : List Char) : wholeWordMatch (lowerChars text) s = false := by
  unfold wholeWordMatch matchWordAt
  rw [List.any_eq_false]
  intro i _
  rw [show lowerChars text = text.toList.map Char.toLower from rfl,
    boundaryAt_ws text.toList h i]
  simp

theorem find_synonyms_ws (text : String) (h : ∀ c ∈ text.toList, c.isWhitespace = true)
    (synonyms : List String) : find_synonyms_in_text text synonyms = [] := by
  unfold find_synonyms_in_text
  split
  · rfl
  · rw [List.filter_eq_nil]
    intro a _
    rw [wholeWordMatch_ws text h]
    simp

/-- Claim C8 fails as stated on whitespace-only text: the classification is
still 'bad', but the recorded reason is about entities not found, not about
missing supporting text. -/
theorem claim_C8_counterexample :
    (∀ c ∈ (" " : String).toList, c.isWhitespace = true) ∧
    (classify_edge_with_cache ⟨"CHEBI:1", "CHEBI:2", some " "⟩ (fun _ => [])
        (fun _ => ["doxorubicin"])).2.reason
      = some "Neither subject nor object found in text" ∧
    (classify_edge_with_cache ⟨"CHEBI:1", "CHEBI:2", some " "⟩ (fun _ => [])
        (fun _ => ["doxorubicin"])).2.reason ≠ some "No supporting text available" := by
  refine ⟨by decide, rfl, by decide⟩

/-- Claim C8 (corrected): an absent, empty or "NA" sentences field yields
'bad' with reason "No supporting text available", regardless of the other
edge fields; whitespace-only (non-empty) text is not recognised as missing
text — the edge still classifies 'bad', but with a different reason. -/
theorem claim_C8_missing_text :
    (∀ (edge : Edge) (cache : String → List LookupResult) (sd : String → List String),
      edge.sentences = none ∨ edge.sentences = some "" ∨ edge.sentences = some "NA" →
      classify_edge_with_cache edge cache sd
        = ("bad", mkDebug edge (some "No supporting text available") none none)) ∧
    (∀ (edge : Edge) (cache : String → List LookupResult) (sd : String → List String)
        (text : String),
      edge.sentences = some text → text ≠ "" →
      (∀ c ∈ text.toList, c.isWhitespace = true) →
      (classify_edge_with_cache edge cache sd).1 = "bad" ∧
        (classify_edge_with_cache edge cache sd).2.reason
          ≠ some "No supporting text available") := by
  constructor
  · intro edge cache sd h
    rcases h with h | h | h
    · unfold classify_edge_with_cache
      rw [h]
    · unfold classify_edge_with_cache
      rw [h]
      rfl
    · unfold classify_edge_with_cache
      rw [h]
      rfl
  · intro edge cache sd text hsome hne hws
    have hempty : (text == "") = false := by
      simpa using hne
    have hNA : (text == "NA") = false := by
      rcases hna : (text == "NA") with _ | _
      · rfl
      · exfalso
        rw [beq_iff_eq] at hna
        subst hna
        have := hws 'N' (by decide)
        simp at this
    have hfind : ∀ syns : List String, find_synonyms_in_text text syns = [] :=
      find_synonyms_ws text hws
    unfold classify_edge_with_cache
    rw [hsome]
    dsimp only
    rw [hempty, hNA]
    simp only [Bool.or_self, Bool.false_eq_true, if_false]
    unfold check_entity_in_text_with_cache
    rw [hfind, hfind]
    dsimp only
    split
    · exact ⟨rfl, by simp [mkDebug]⟩
    · exact ⟨rfl, by simp [mkDebug]⟩

/-- Witness for C8: the corrected statement applied at the sentinel "NA"
and at a two-space text. -/
theorem claim_C8_witness :
    classify_edge_with_cache ⟨"A", "B", some "NA"⟩ (fun _ => []) (fun _ => ["x"])
      = ("bad", mkDebug ⟨"A", "B", some "NA"⟩ (some "No supporting text available")
          none none) ∧
    (classify_edge_with_cache ⟨"A", "B", some "  "⟩ (fun _ => []) (fun _ => ["x"])).1
      = "bad" :=
  ⟨claim_C8_missing_text.1 _ _ _ (Or.inr (Or.inr rfl)),
   (claim_C8_missing_text.2 ⟨"A", "B", some "  "⟩ _ _ "  " rfl (by decide) (by decide)).1⟩

/-- The exact-match filter the claim describes (from the spec's words, for
comparison): a candidate matches the query when its preferred label or one
of its synonyms equals the query, case-insensitively. -/
def exact_match_spec (query : String) (r : LookupResult) : Bool :=
  lowerChars r.label == lowerChars query ||
  r.synonyms.any (fun s => lowerChars s == lowerChars query)

/-- Claim C4 fails as stated: the populated cache keeps a candidate that
matches the query neither by label nor by synonym list, and
get_exact_matches does not remove it. -/
theorem claim_C4_counterexample :
    execute_bulk_lookups [("default", ["insulin"])]
        (fun _ => [("insulin", [⟨"UNII:X", "unrelated", ["nothing"]⟩])])
      = [("insulin", [⟨"UNII:X", "unrelated", ["nothing"]⟩])] ∧
    exact_match_spec "insulin" ⟨"UNII:X", "unrelated", ["nothing"]⟩ = false ∧
    get_exact_matches [⟨"UNII:X", "unrelated", ["nothing"]⟩]
      = [⟨"UNII:X", "unrelated", ["nothing"]⟩] := by
  refine ⟨rfl, by decide, rfl⟩

/-- Claim C4 (corrected): after population every synonym key maps to the
raw bulk-lookup results verbatim; get_exact_matches returns its input
unchanged (it deliberately performs no filtering), so the disambiguation
hierarchy runs on the unfiltered candidate lists. -/
theorem claim_C4_cache_unfiltered :
    (∀ l : List LookupResult, get_exact_matches l = l) ∧
    (∀ (group : String) (syns : List String)
        (bulk : List String → List (String × List LookupResult)),
      syns.isEmpty = false →
      execute_bulk_lookups [(group, syns)] bulk = bulk syns) ∧
    (∀ (cache : String → List LookupResult) (s : String),
      synonym_is_ambiguous cache s
        = if (cache s).isEmpty then false
          else if 1 < (cache s).length then
            !((preferred_matches s (cache s)).length == 1)
          else false) := by
  have hid : ∀ l : List LookupResult, get_exact_matches l = l := by
    intro l
    cases l <;> rfl
  refine ⟨hid, ?_, ?_⟩
  · intro group syns bulk h
    unfold execute_bulk_lookups
    rw [List.foldl_cons, List.foldl_nil]
    dsimp only
    rw [h]
    simp
  · intro cache s
    unfold synonym_is_ambiguous
    dsimp only
    rw [hid]

/-- Witness for C4: verbatim storage applied at a concrete nonempty group. -/
theorem claim_C4_witness :
    (["doxorubicin"] : List String).isEmpty = false ∧
    execute_bulk_lookups [("default", ["doxorubicin"])]
        (fun _ => [("doxorubicin", [⟨"CHEBI:28748", "Doxorubicin", ["DOX"]⟩])])
      = [("doxorubicin", [⟨"CHEBI:28748", "Doxorubicin", ["DOX"]⟩])] :=
  ⟨rfl, claim_C4_cache_unfiltered.2.1 "default" ["doxorubicin"] _ rfl⟩

theorem retry_from_all_retryable (func : Nat → Except String α) (base : ℚ)
    (jitter : Nat → ℚ) :
    ∀ (remaining attempt : Nat),
      (∀ i, attempt ≤ i → i ≤ attempt + remaining →
          ∃ e, func i = Except.error e ∧ retryable_error e = true) →
      ∃ e, func (attempt + remaining) = Except.error e ∧
        retry_from func base jitter attempt remaining
          = (Except.error e, attempt + remaining + 1,
             (List.range remaining).map
               (fun k => base * 2 ^ (attempt + k) + jitter (attempt + k)))
  | 0, attempt, h => by
    obtain ⟨e, he, _⟩ := h attempt le_rfl (by omega)
    refine ⟨e, by simpa using he, ?_⟩
    unfold retry_from
    rw [he]
    simp
  | (r + 1), attempt, h => by
    obtain ⟨e0, he0, hr0⟩ := h attempt le_rfl (by omega)
    obtain ⟨e, he, hrec⟩ := retry_from_all_retryable func base jitter r (attempt + 1)
      (fun i h1 h2 => h i (by omega) (by omega))
    refine ⟨e, ?_, ?_⟩
    · rw [show attempt + (r + 1) = attempt + 1 + r from by omega]
      exact he
    · unfold retry_from
      rw [he0]
      dsimp only
      rw [hr0]
      simp only [if_true]
      rw [hrec]
      have h2 : attempt + 1 + r + 1 = attempt + (r + 1) + 1 := by omega
      have hmap : (List.range (r + 1)).map
            (fun k => base * 2 ^ (attempt + k) + jitter (attempt + k))
          = (base * 2 ^ attempt + jitter attempt) ::
            (List.range r).map
              (fun k => base * 2 ^ (attempt + 1 + k) + jitter (attempt + 1 + k)) := by
        rw [List.range_succ_eq_map, List.map_cons, List.map_map]
        simp only [Nat.add_zero]
        congr 1
        apply List.map_congr_left
        intro k _
        simp only [Function.comp_apply, Nat.succ_eq_add_one]
        rw [show attempt + (k + 1) = attempt + 1 + k from by omega]
      rw [hmap, h2]

/-- Claim C7 fails as stated: a 504 error is a 5xx-class server error, but
the code re-raises it immediately (one attempt, no retries, no backoff)
because it only looks for the literal substrings "500/502/503 Server
Error". -/
theorem claim_C7_counterexample :
    is_5xx_class "API request failed: 504 Server Error: Gateway Timeout" ∧
    api_request_with_retry
        (fun _ => (Except.error "API request failed: 504 Server Error: Gateway Timeout" :
          Except String Nat))
        3 1 (fun _ => 0)
      = (Except.error "API request failed: 504 Server Error: Gateway Timeout", 1, []) := by
  constructor
  · exact ⟨504, by omega, by omega, by decide⟩
  · rfl

/-- Claim C7 (corrected): a success returns immediately; a failure whose
message lacks the three retried substrings ("500/502/503 Server Error",
rather than the whole 5xx class) is re-raised at once with no backoff;
when every attempt fails with a retried message, the wrapper makes
max_retries + 1 attempts, sleeps base * 2 ^ attempt + jitter before each
retry, and propagates the last error. -/
theorem claim_C7_retry_policy :
    (∀ (α : Type) (func : Nat → Except String α) (max_retries : Nat) (base : ℚ)
        (jitter : Nat → ℚ) (v : α),
      func 0 = Except.ok v →
      api_request_with_retry func max_retries base jitter = (Except.ok v, 1, [])) ∧
    (∀ (α : Type) (func : Nat → Except String α) (max_retries : Nat) (base : ℚ)
        (jitter : Nat → ℚ) (e : String),
      func 0 = Except.error e → retryable_error e = false →
      api_request_with_retry func max_retries base jitter = (Except.error e, 1, [])) ∧
    (∀ (α : Type) (func : Nat → Except String α) (max_retries : Nat) (base : ℚ)
        (jitter : Nat → ℚ),
      (∀ i, i ≤ max_retries → ∃ e, func i = Except.error e ∧ retryable_error e = true) →
      ∃ e, func max_retries = Except.error e ∧
        api_request_with_retry func max_retries base jitter
          = (Except.error e, max_retries + 1,
             (List.range max_retries).map (fun a => base * 2 ^ a + jitter a))) := by
  refine ⟨?_, ?_, ?_⟩
  · intro α func max_retries base jitter v h
    unfold api_request_with_retry
    cases max_retries <;>
      · unfold retry_from
        rw [h]
  · intro α func max_retries base jitter e h hr
    unfold api_request_with_retry
    cases max_retries
    · unfold retry_from
      rw [h]
    · unfold retry_from
      rw [h]
      dsimp only
      rw [hr]
      simp
  · intro α func max_retries base jitter h
    obtain ⟨e, he, hres⟩ := retry_from_all_retryable func base jitter max_retries 0
      (fun i h1 h2 => h i (by omega))
    refine ⟨e, by simpa using he, ?_⟩
    unfold api_request_with_retry
    rw [hres]
    simp

/-- Witness for C7: a 404-style error propagates after one attempt; a
502 error is retried to exhaustion with exponential backoff. -/
theorem claim_C7_witness :
    api_request_with_retry
        (fun _ => (Except.error "API request failed: 404 Client Error" :
          Except String Nat)) 3 1 (fun _ => 0)
      = (Except.error "API request failed: 404 Client Error", 1, []) ∧
    ∃ e, (fun _ => (Except.error "502 Server Error: Bad Gateway" : Except String Nat)) 2
        = Except.error e ∧
      api_request_with_retry
          (fun _ => (Except.error "502 Server Error: Bad Gateway" : Except String Nat))
          2 1 (fun _ => 0)
        = (Except.error e, 2 + 1, (List.range 2).map (fun a => 1 * 2 ^ a + 0)) :=
  ⟨claim_C7_retry_policy.2.1 Nat _ 3 1 (fun _ => 0) _ rfl (by decide),
   claim_C7_retry_policy.2.2 Nat _ 2 1 (fun _ => 0)
     (fun i _ => ⟨"502 Server Error: Bad Gateway", rfl, by decide⟩)⟩

theorem mem_insert_fold (q : String → Bool) (l : List String) :
    ∀ (acc : List String) (s : String),
      s ∈ l.foldl (fun a x => if q x then a else a.insert x) acc ↔
        s ∈ acc ∨ (s ∈ l ∧ q s = false) := by
  induction l with
  | nil =>
    intro acc s
    simp
  | cons x xs ih =>
    intro acc s
    rw [List.foldl_cons, ih]
    by_cases hsx : s = x
    · subst hsx
      rcases hq : q s with _ | _ <;> simp_all [List.mem_insert_iff]
    · rcases hq : q x with _ | _ <;> simp_all [List.mem_insert_iff]

theorem nodup_insert_fold (q : String → Bool) (l : List String) :
    ∀ acc : List String, acc.Nodup →
      (l.foldl (fun a x => if q x then a else a.insert x) acc).Nodup := by
  induction l with
  | nil =>
    intro acc h
    simpa using h
  | cons x xs ih =>
    intro acc h
    rw [List.foldl_cons]
    apply ih
    rcases hq : q x with _ | _ <;> simp [h, List.Nodup.insert]

theorem mem_collect_step (sd : String → List String) (acc : List String)
    (edge : Edge) (s : String) :
    s ∈ collect_batch_step sd acc edge ↔
      s ∈ acc ∨ ∃ text, edge.sentences = some text ∧ text ≠ "" ∧ text ≠ "NA" ∧
        s ∈ sd edge.subject ++ sd edge.object ∧
        (find_synonyms_in_text text [s]).isEmpty = false := by
  rcases hsen : edge.sentences with _ | text
  · unfold collect_batch_step
    rw [hsen]
    simp
  · unfold collect_batch_step
    rw [hsen]
    dsimp only
    split
    · rename_i hbad
      rw [Bool.or_eq_true, beq_iff_eq, beq_iff_eq] at hbad
      constructor
      · intro h
        exact Or.inl h
      · rintro (h | ⟨text', ht', hne, hna, -, -⟩)
        · exact h
        · cases ht'
          rcases hbad with hbad | hbad
          · exact absurd hbad hne
          · exact absurd hbad hna
    · rename_i hgood
      rw [Bool.or_eq_true, not_or, beq_iff_eq, beq_iff_eq] at hgood
      push_neg at hgood
      rw [mem_insert_fold]
      constructor
      · rintro (h | ⟨hmem, hfind⟩)
        · exact Or.inl h
        · exact Or.inr ⟨text, rfl, hgood.1, hgood.2, hmem,
            by simpa using hfind⟩
      · rintro (h | ⟨text', ht', -, -, hmem, hfind⟩)
        · exact Or.inl h
        · cases ht'
          exact Or.inr ⟨hmem, by simpa using hfind⟩

theorem mem_collect_fold (sd : String → List String) (edges : List Edge) :
    ∀ (acc : List String) (s : String),
      s ∈ edges.foldl (collect_batch_step sd) acc ↔
        s ∈ acc ∨ ∃ e ∈ edges, ∃ text, e.sentences = some text ∧ text ≠ "" ∧
          text ≠ "NA" ∧ s ∈ sd e.subject ++ sd e.object ∧
          (find_synonyms_in_text text [s]).isEmpty = false := by
  induction edges with
  | nil =>
    intro acc s
    simp
  | cons e es ih =>
    intro acc s
    rw [List.foldl_cons, ih, mem_collect_step]
    simp only [List.mem_cons]
    constructor
    · rintro ((h | h) | ⟨e', he', h⟩)
      · exact Or.inl h
      · exact Or.inr ⟨e, Or.inl rfl, h⟩
      · exact Or.inr ⟨e', Or.inr he', h⟩
    · rintro (h | ⟨e', he' | he', h⟩)
      · exact Or.inl (Or.inl h)
      · subst he'
        exact Or.inl (Or.inr h)
      · exact Or.inr ⟨e', he', h⟩

/-- The synonym strings the claim describes (from the claim's words, for
comparison): belonging to some batch edge's subject or object entity. -/
def belongs_to_batch_entities (edges : List Edge) (synonyms_data : String → List String)
    (s : String) : Bool :=
  edges.any (fun e => (synonyms_data e.subject ++ synonyms_data e.object).contains s)

/-- The other half of the claim's description (from the claim's words, for
comparison): occurring, by the text-matcher rule, in the supporting text of
at least one edge of the batch. -/
def occurs_in_some_batch_text (edges : List Edge) (s : String) : Bool :=
  edges.any (fun e =>
    match e.sentences with
    | none => false
    | some text => !(find_synonyms_in_text text [s]).isEmpty)

/-- Claim C9 fails as stated: "alpha" belongs to the first edge's subject
and occurs in the second edge's text, yet it is not collected, because the
code only pairs each edge's own synonyms with that edge's own text. -/
theorem claim_C9_counterexample :
    belongs_to_batch_entities
        [⟨"A", "X", some "beta here"⟩, ⟨"B", "Y", some "alpha here"⟩]
        (fun c => if c == "A" then ["alpha"] else if c == "B" then ["beta"] else [])
        "alpha" = true ∧
    occurs_in_some_batch_text
        [⟨"A", "X", some "beta here"⟩, ⟨"B", "Y", some "alpha here"⟩] "alpha" = true ∧
    "alpha" ∉ collect_all_synonyms_from_batch
        [⟨"A", "X", some "beta here"⟩, ⟨"B", "Y", some "alpha here"⟩]
        (fun c => if c == "A" then ["alpha"] else if c == "B" then ["beta"] else []) := by
  refine ⟨rfl, rfl, by decide⟩

/-- Claim C9 (corrected): a synonym is collected for the batch's bulk
lookup exactly when some edge of the batch with usable text both owns it
(through that edge's subject or object entity) and contains it in that same
edge's supporting text; the collected list is duplicate-free.  A synonym of
one edge occurring only in a different edge's text is not collected. -/
theorem claim_C9_batch_collection :
    (∀ (edges : List Edge) (sd : String → List String) (s : String),
      s ∈ collect_all_synonyms_from_batch edges sd ↔
        ∃ e ∈ edges, ∃ text, e.sentences = some text ∧ text ≠ "" ∧ text ≠ "NA" ∧
          s ∈ sd e.subject ++ sd e.object ∧
          (find_synonyms_in_text text [s]).isEmpty = false) ∧
    (∀ (edges : List Edge) (sd : String → List String),
      (collect_all_synonyms_from_batch edges sd).Nodup) := by
  constructor
  · intro edges sd s
    unfold collect_all_synonyms_from_batch
    rw [mem_collect_fold]
    simp
  · intro edges sd
    unfold collect_all_synonyms_from_batch
    have : ∀ (acc : List String), acc.Nodup →
        (edges.foldl (collect_batch_step sd) acc).Nodup := by
      induction edges with
      | nil =>
        intro acc h
        simpa using h
      | cons e es ih =>
        intro acc h
        rw [List.foldl_cons]
        apply ih
        rcases hsen : e.sentences with _ | text
        · unfold collect_batch_step
          rw [hsen]
          exact h
        · unfold collect_batch_step
          rw [hsen]
          dsimp only
          split
          · exact h
          · exact nodup_insert_fold _ _ acc h
    exact this [] (by simp)

/-- Witness for C9: a synonym owned by an edge and present in that edge's
own text is collected, and the collected list is duplicate-free. -/
theorem claim_C9_witness :
    "alpha" ∈ collect_all_synonyms_from_batch [⟨"A", "X", some "alpha here"⟩]
        (fun c => if c == "A" then ["alpha", "gamma"] else []) ∧
    (collect_all_synonyms_from_batch [⟨"A", "X", some "alpha here"⟩]
        (fun c => if c == "A" then ["alpha", "gamma"] else [])).Nodup :=
  ⟨(claim_C9_batch_collection.1 _ _ _).mpr
      ⟨⟨"A", "X", some "alpha here"⟩, by decide, "alpha here", rfl, by decide, by decide,
        by decide, by decide⟩,
   claim_C9_batch_collection.2 _ _⟩

theorem first_ambiguous_cons (cache : String → Option (List LookupResult))
    (s : String) (rest : List String) :
    first_ambiguous_synonym cache (s :: rest)
      = match cache s with
        | some cs =>
          match get_winning_entity_for_synonym s cs with
          | none => some (s, cs)
          | some _ => first_ambiguous_synonym cache rest
        | none => first_ambiguous_synonym cache rest := rfl

theorem first_ambiguous_none_iff (cache : String → Option (List LookupResult)) :
    ∀ l : List String,
      first_ambiguous_synonym cache l = none ↔
        ∀ s ∈ l, ∀ cs, cache s = some cs →
          get_winning_entity_for_synonym s cs ≠ none := by
  intro l
  induction l with
  | nil => simp [first_ambiguous_synonym]
  | cons s rest ih =>
    rw [first_ambiguous_cons]
    rcases hc : cache s with _ | cs
    · dsimp only
      rw [ih]
      constructor
      · intro h x hx cs' hcs'
        rcases List.mem_cons.mp hx with rfl | hx'
        · rw [hc] at hcs'
          cases hcs'
        · exact h x hx' cs' hcs'
      · intro h x hx cs' hcs'
        exact h x (List.mem_cons_of_mem s hx) cs' hcs'
    · dsimp only
      rcases hw : get_winning_entity_for_synonym s cs with _ | w
      · dsimp only
        constructor
        · intro h
          cases h
        · intro h
          exact absurd hw (h s (List.mem_cons_self s rest) cs hc)
      · dsimp only
        rw [ih]
        constructor
        · intro h x hx cs' hcs'
          rcases List.mem_cons.mp hx with rfl | hx'
          · rw [hc] at hcs'
            cases hcs'
            rw [hw]
            exact fun hcon => Option.noConfusion hcon
          · exact h x hx' cs' hcs'
        · intro h x hx cs' hcs'
          exact h x (List.mem_cons_of_mem s hx) cs' hcs'

theorem first_ambiguous_some (cache : String → Option (List LookupResult)) :
    ∀ (l : List String) (s : String) (cs : List LookupResult),
      first_ambiguous_synonym cache l = some (s, cs) →
      s ∈ l ∧ cache s = some cs ∧ get_winning_entity_for_synonym s cs = none := by
  intro l
  induction l with
  | nil =>
    intro s cs h
    cases h
  | cons x rest ih =>
    intro s cs h
    rw [first_ambiguous_cons] at h
    rcases hc : cache x with _ | cs'
    · rw [hc] at h
      dsimp only at h
      obtain ⟨h1, h2, h3⟩ := ih s cs h
      exact ⟨List.mem_cons_of_mem x h1, h2, h3⟩
    · rw [hc] at h
      dsimp only at h
      rcases hw : get_winning_entity_for_synonym x cs' with _ | w
      · rw [hw] at h
        dsimp only at h
        cases h
        exact ⟨List.mem_cons_self x rest, hc, hw⟩
      · rw [hw] at h
        dsimp only at h
        obtain ⟨h1, h2, h3⟩ := ih s cs h
        exact ⟨List.mem_cons_of_mem x h1, h2, h3⟩

theorem first_identity_cons (cache : String → Option (List LookupResult))
    (expected : String) (s : String) (rest : List String) :
    first_identity_mismatch cache expected (s :: rest)
      = match cache s with
        | some cs =>
          match get_winning_entity_for_synonym s cs with
          | some w =>
            if w.curie = expected then first_identity_mismatch cache expected rest
            else some (s, w.curie)
          | none => first_identity_mismatch cache expected rest
        | none => first_identity_mismatch cache expected rest := rfl

theorem first_identity_none_iff (cache : String → Option (List LookupResult))
    (expected : String) :
    ∀ l : List String,
      first_identity_mismatch cache expected l = none ↔
        ∀ s ∈ l, ∀ cs, cache s = some cs →
          ∀ w, get_winning_entity_for_synonym s cs = some w → w.curie = expected := by
  intro l
  induction l with
  | nil => simp [first_identity_mismatch]
  | cons s rest ih =>
    rw [first_identity_cons]
    rcases hc : cache s with _ | cs
    · dsimp only
      rw [ih]
      constructor
      · intro h x hx cs' hcs' w hw
        rcases List.mem_cons.mp hx with rfl | hx'
        · rw [hc] at hcs'
          cases hcs'
        · exact h x hx' cs' hcs' w hw
      · intro h x hx cs' hcs' w hw
        exact h x (List.mem_cons_of_mem s hx) cs' hcs' w hw
    · dsimp only
      rcases hw : get_winning_entity_for_synonym s cs with _ | w
      · dsimp only
        rw [ih]
        constructor
        · intro h x hx cs' hcs' w' hw'
          rcases List.mem_cons.mp hx with rfl | hx'
          · rw [hc] at hcs'
            cases hcs'
            rw [hw] at hw'
            cases hw'
          · exact h x hx' cs' hcs' w' hw'
        · intro h x hx cs' hcs' w' hw'
          exact h x (List.mem_cons_of_mem s hx) cs' hcs' w' hw'
      · dsimp only
        by_cases hne : w.curie = expected
        · rw [if_pos hne, ih]
          constructor
          · intro h x hx cs' hcs' w' hw'
            rcases List.mem_cons.mp hx with rfl | hx'
            · rw [hc] at hcs'
              cases hcs'
              rw [hw] at hw'
              cases hw'
              exact hne
            · exact h x hx' cs' hcs' w' hw'
          · intro h x hx cs' hcs' w' hw'
            exact h x (List.mem_cons_of_mem s hx) cs' hcs' w' hw'
        · rw [if_neg hne]
          constructor
          · intro h
            cases h
          · intro h
            exact absurd (h s (List.mem_cons_self s rest) cs hc w hw) hne

theorem first_identity_some (cache : String → Option (List LookupResult))
    (expected : String) :
    ∀ (l : List String) (s actual : String),
      first_identity_mismatch cache expected l = some (s, actual) →
      s ∈ l ∧ actual ≠ expected ∧
        ∃ cs w, cache s = some cs ∧
          get_winning_entity_for_synonym s cs = some w ∧ w.curie = actual := by
  intro l
  induction l with
  | nil =>
    intro s actual h
    cases h
  | cons x rest ih =>
    intro s actual h
    rw [first_identity_cons] at h
    rcases hc : cache x with _ | cs
    · rw [hc] at h
      dsimp only at h
      obtain ⟨h1, h2, h3⟩ := ih s actual h
      exact ⟨List.mem_cons_of_mem x h1, h2, h3⟩
    · rw [hc] at h
      dsimp only at h
      rcases hw : get_winning_entity_for_synonym x cs with _ | w
      · rw [hw] at h
        dsimp only at h
        obtain ⟨h1, h2, h3⟩ := ih s actual h
        exact ⟨List.mem_cons_of_mem x h1, h2, h3⟩
      · rw [hw] at h
        dsimp only at h
        by_cases hne : w.curie = expected
        · rw [if_pos hne] at h
          obtain ⟨h1, h2, h3⟩ := ih s actual h
          exact ⟨List.mem_cons_of_mem x h1, h2, h3⟩
        · rw [if_neg hne] at h
          cases h
          exact ⟨List.mem_cons_self x rest, hne, cs, w, hc, hw, rfl⟩

/-- Reduction of the final classifier once steps 1-4 (text present,
normalization found, synonym lists nonempty, both roles matched in text)
are known to pass: the outcome is decided by the disambiguation engine and
then the identity check. -/
theorem classify_edge_resolution (edge : Edge)
    (cache : String → Option (List LookupResult))
    (norm : String → Option NormalizedEntity)
    (syns : String → Option (List String))
    (subjN objN : NormalizedEntity) (ss os : List String)
    (h_text : no_supporting_text edge.sentences = false)
    (h_sn : norm edge.subject = some subjN) (h_on : norm edge.object = some objN)
    (h_ss : syns subjN.identifier = some ss) (h_os : syns objN.identifier = some os)
    (h_ssne : ss.isEmpty = false) (h_osne : os.isEmpty = false)
    (h_sf : (find_synonyms_in_text (edge.sentences.getD "") ss).isEmpty = false)
    (h_of : (find_synonyms_in_text (edge.sentences.getD "") os).isEmpty = false) :
    classify_edge edge cache norm syns =
      match first_ambiguous_synonym cache
          (find_synonyms_in_text (edge.sentences.getD "") ss ++
            find_synonyms_in_text (edge.sentences.getD "") os) with
      | some (s, cs) => ("ambiguous", Reason.ambiguousSynonym s (ambiguity_kind s cs))
      | none =>
        match first_identity_mismatch cache subjN.identifier
            (find_synonyms_in_text (edge.sentences.getD "") ss) with
        | some (s, actual) => ("bad", Reason.identityMismatch s subjN.identifier actual)
        | none =>
          match first_identity_mismatch cache objN.identifier
              (find_synonyms_in_text (edge.sentences.getD "") os) with
          | some (s, actual) => ("bad", Reason.identityMismatch s objN.identifier actual)
          | none => ("good", Reason.passed) := by
  unfold classify_edge
  rw [h_text]
  simp only [Bool.false_eq_true, if_false]
  rw [h_sn, h_on]
  dsimp only
  rw [h_ss, h_os]
  dsimp only
  rw [h_ssne, h_osne]
  simp only [Bool.or_self, Bool.false_eq_true, if_false]
  rw [h_sf, h_of]
  simp only [Bool.false_eq_true, if_false]

/-- Claim C2 (confirmed, spec-modelled): once both roles have found
synonyms, an engine verdict of no single winner for any found synonym sends
the edge to the AMBIGUOUS bucket (routed to the ambiguous-edges output),
never to 'bad', and the recorded reason names the offending synonym together
with which kind of ambiguity occurred. -/
theorem claim_C2_ambiguous_bucket (edge : Edge)
    (cache : String → Option (List LookupResult))
    (norm : String → Option NormalizedEntity)
    (syns : String → Option (List String))
    (subjN objN : NormalizedEntity) (ss os : List String)
    (h_text : no_supporting_text edge.sentences = false)
    (h_sn : norm edge.subject = some subjN) (h_on : norm edge.object = some objN)
    (h_ss : syns subjN.identifier = some ss) (h_os : syns objN.identifier = some os)
    (h_ssne : ss.isEmpty = false) (h_osne : os.isEmpty = false)
    (h_sf : (find_synonyms_in_text (edge.sentences.getD "") ss).isEmpty = false)
    (h_of : (find_synonyms_in_text (edge.sentences.getD "") os).isEmpty = false)
    (h_amb : ∃ s ∈ find_synonyms_in_text (edge.sentences.getD "") ss ++
        find_synonyms_in_text (edge.sentences.getD "") os,
      ∃ cs, cache s = some cs ∧ get_winning_entity_for_synonym s cs = none) :
    (classify_edge edge cache norm syns).1 = "ambiguous" ∧
    (classify_edge edge cache norm syns).1 ≠ "bad" ∧
    output_bucket (classify_edge edge cache norm syns).1 = "ambiguous_edges" ∧
    ∃ s cs, s ∈ find_synonyms_in_text (edge.sentences.getD "") ss ++
        find_synonyms_in_text (edge.sentences.getD "") os ∧
      cache s = some cs ∧ get_winning_entity_for_synonym s cs = none ∧
      (classify_edge edge cache norm syns).2
        = Reason.ambiguousSynonym s (ambiguity_kind s cs) := by
  have hred := classify_edge_resolution edge cache norm syns subjN objN ss os
    h_text h_sn h_on h_ss h_os h_ssne h_osne h_sf h_of
  rcases hfa : first_ambiguous_synonym cache
      (find_synonyms_in_text (edge.sentences.getD "") ss ++
        find_synonyms_in_text (edge.sentences.getD "") os) with _ | ⟨s, cs⟩
  · exfalso
    rw [first_ambiguous_none_iff] at hfa
    obtain ⟨s, hs, cs, hcs, hnone⟩ := h_amb
    exact (hfa s hs cs hcs) hnone
  · obtain ⟨hmem, hcache, hnone⟩ := first_ambiguous_some cache _ s cs hfa
    rw [hred, hfa]
    dsimp only
    exact ⟨rfl, by decide, rfl, s, cs, hmem, hcache, hnone, rfl⟩

/-- Claim C3 (confirmed, spec-modelled): when no found synonym is
ambiguous, the classifier verifies every winner's identifier against the
expected normalized identifier of its role — the edge is PASSED exactly
when all winners match, and any mismatch yields 'bad' with a reason naming
the expected and the actual identifier of a genuinely mismatching winner. -/
theorem claim_C3_identity_check (edge : Edge)
    (cache : String → Option (List LookupResult))
    (norm : String → Option NormalizedEntity)
    (syns : String → Option (List String))
    (subjN objN : NormalizedEntity) (ss os : List String)
    (h_text : no_supporting_text edge.sentences = false)
    (h_sn : norm edge.subject = some subjN) (h_on : norm edge.object = some objN)
    (h_ss : syns subjN.identifier = some ss) (h_os : syns objN.identifier = some os)
    (h_ssne : ss.isEmpty = false) (h_osne : os.isEmpty = false)
    (h_sf : (find_synonyms_in_text (edge.sentences.getD "") ss).isEmpty = false)
    (h_of : (find_synonyms_in_text (edge.sentences.getD "") os).isEmpty = false)
    (h_noamb : first_ambiguous_synonym cache
        (find_synonyms_in_text (edge.sentences.getD "") ss ++
          find_synonyms_in_text (edge.sentences.getD "") os) = none) :
    (classify_edge edge cache norm syns = ("good", Reason.passed) ↔
      (∀ s ∈ find_synonyms_in_text (edge.sentences.getD "") ss, ∀ cs,
          cache s = some cs → ∀ w, get_winning_entity_for_synonym s cs = some w →
          w.curie = subjN.identifier) ∧
      (∀ s ∈ find_synonyms_in_text (edge.sentences.getD "") os, ∀ cs,
          cache s = some cs → ∀ w, get_winning_entity_for_synonym s cs = some w →
          w.curie = objN.identifier)) ∧
    (∀ s expected actual,
      (classify_edge edge cache norm syns).2
          = Reason.identityMismatch s expected actual →
      (classify_edge edge cache norm syns).1 = "bad" ∧ actual ≠ expected ∧
        (expected = subjN.identifier ∨ expected = objN.identifier) ∧
        ∃ cs w, cache s = some cs ∧
          get_winning_entity_for_synonym s cs = some w ∧ w.curie = actual) := by
  have hred := classify_edge_resolution edge cache norm syns subjN objN ss os
    h_text h_sn h_on h_ss h_os h_ssne h_osne h_sf h_of
  rw [hred, h_noamb]
  rcases hm1 : first_identity_mismatch cache subjN.identifier
      (find_synonyms_in_text (edge.sentences.getD "") ss) with _ | ⟨s1, act1⟩
  · rcases hm2 : first_identity_mismatch cache objN.identifier
        (find_synonyms_in_text (edge.sentences.getD "") os) with _ | ⟨s2, act2⟩
    · constructor
      · constructor
        · intro _
          exact ⟨(first_identity_none_iff cache subjN.identifier _).mp hm1,
            (first_identity_none_iff cache objN.identifier _).mp hm2⟩
        · intro _
          rfl
      · intro s expected actual heq
        exact absurd heq (by simp)
    · obtain ⟨hmem, hne, cs, w, hcs, hw, hcurie⟩ :=
        first_identity_some cache objN.identifier _ s2 act2 hm2
      constructor
      · constructor
        · intro heq
          exact absurd heq (by simp)
        · rintro ⟨-, hall⟩
          exact absurd (hall s2 hmem cs hcs w hw) (hcurie ▸ hne)
      · intro s expected actual heq
        simp only [Reason.identityMismatch.injEq] at heq
        obtain ⟨rfl, rfl, rfl⟩ := heq
        exact ⟨rfl, hne, Or.inr rfl, cs, w, hcs, hw, hcurie⟩
  · obtain ⟨hmem, hne, cs, w, hcs, hw, hcurie⟩ :=
      first_identity_some cache subjN.identifier _ s1 act1 hm1
    constructor
    · constructor
      · intro heq
        exact absurd heq (by simp)
      · rintro ⟨hall, -⟩
        exact absurd (hall s1 hmem cs hcs w hw) (hcurie ▸ hne)
    · intro s expected actual heq
      simp only [Reason.identityMismatch.injEq] at heq
      obtain ⟨rfl, rfl, rfl⟩ := heq
      exact ⟨rfl, hne, Or.inl rfl, cs, w, hcs, hw, hcurie⟩

/-- Claim C6 (confirmed, spec-modelled): with text present, a subject or
object CURIE absent from the normalized-entities mapping yields 'bad' with
the missing-normalization reason; with both normalizations present, an
absent or empty synonym list under either normalized preferred identifier
yields 'bad' with the missing-synonyms reason; and the classifier reads the
synonym mapping only at the two normalized preferred identifiers, never at
the raw input CURIEs. -/
theorem claim_C6_normalized_synonym_lookup :
    (∀ (edge : Edge) (cache : String → Option (List LookupResult))
        (norm : String → Option NormalizedEntity) (syns : String → Option (List String)),
      no_supporting_text edge.sentences = false →
      norm edge.subject = none ∨ norm edge.object = none →
      classify_edge edge cache norm syns = ("bad", Reason.missingNormalization)) ∧
    (∀ (edge : Edge) (cache : String → Option (List LookupResult))
        (norm : String → Option NormalizedEntity) (syns : String → Option (List String))
        (subjN objN : NormalizedEntity),
      no_supporting_text edge.sentences = false →
      norm edge.subject = some subjN → norm edge.object = some objN →
      syns subjN.identifier = none ∨ syns subjN.identifier = some [] ∨
        syns objN.identifier = none ∨ syns objN.identifier = some [] →
      classify_edge edge cache norm syns = ("bad", Reason.missingSynonyms)) ∧
    (∀ (edge : Edge) (cache : String → Option (List LookupResult))
        (norm : String → Option NormalizedEntity)
        (syns₁ syns₂ : String → Option (List String)) (subjN objN : NormalizedEntity),
      norm edge.subject = some subjN → norm edge.object = some objN →
      syns₁ subjN.identifier = syns₂ subjN.identifier →
      syns₁ objN.identifier = syns₂ objN.identifier →
      classify_edge edge cache norm syns₁ = classify_edge edge cache norm syns₂) := by
  refine ⟨?_, ?_, ?_⟩
  · intro edge cache norm syns h_text h
    unfold classify_edge
    rw [h_text]
    simp only [Bool.false_eq_true, if_false]
    rcases h with h | h
    · rw [h]
    · rw [h]
      rcases hsubj : norm edge.subject with _ | s <;> rfl
  · intro edge cache norm syns subjN objN h_text h_sn h_on h
    unfold classify_edge
    rw [h_text]
    simp only [Bool.false_eq_true, if_false]
    rw [h_sn, h_on]
    dsimp only
    rcases h with h | h | h | h
    · rw [h]
    · rw [h]
      rcases hos : syns objN.identifier with _ | os
      · rfl
      · rfl
    · rw [h]
      rcases hss : syns subjN.identifier with _ | ss
      · rfl
      · rfl
    · rw [h]
      rcases hss : syns subjN.identifier with _ | ss
      · rfl
      · cases ss
        · rfl
        · rfl
  · intro edge cache norm syns₁ syns₂ subjN objN h_sn h_on hagree1 hagree2
    rcases h_text : no_supporting_text edge.sentences with _ | _
    · unfold classify_edge
      rw [h_text]
      simp only [Bool.false_eq_true, if_false]
      rw [h_sn, h_on]
      dsimp only
      rw [hagree1, hagree2]
    · unfold classify_edge
      rw [h_text]
      rfl

/-- Witness inputs for C2: the regular-synonym ambiguity scenario from the
repository's stage-4 tests. -/
def w2cache : String → Option (List LookupResult) := fun s =>
  if s == "insulin" then
    some [⟨"CHEBI:5931", "hormone1", ["insulin", "growth hormone"]⟩,
      ⟨"UNII:12345", "hormone2", ["insulin", "other hormone"]⟩]
  else if s == "IGF1" then some [⟨"NCBIGene:3479", "IGF1", ["IGF1"]⟩]
  else none

def w2norm : String → Option NormalizedEntity := fun c =>
  if c == "CHEBI:5931" then some ⟨"CHEBI:5931"⟩
  else if c == "NCBIGene:3479" then some ⟨"NCBIGene:3479"⟩
  else none

def w2syn : String → Option (List String) := fun c =>
  if c == "CHEBI:5931" then some ["insulin"]
  else if c == "NCBIGene:3479" then some ["IGF1"]
  else none

def w2edge : Edge := ⟨"CHEBI:5931", "NCBIGene:3479", some "Insulin increases IGF1 expression."⟩

/-- Witness for C2: the insulin edge with two regular-synonym candidates
goes to the ambiguous bucket. -/
theorem claim_C2_witness :
    (classify_edge w2edge w2cache w2norm w2syn).1 = "ambiguous" ∧
      output_bucket (classify_edge w2edge w2cache w2norm w2syn).1 = "ambiguous_edges" :=
  have h := claim_C2_ambiguous_bucket w2edge w2cache w2norm w2syn
    ⟨"CHEBI:5931"⟩ ⟨"NCBIGene:3479"⟩ ["insulin"] ["IGF1"]
    (by decide) rfl rfl rfl rfl rfl rfl (by decide) (by decide)
    ⟨"insulin", by decide,
      [⟨"CHEBI:5931", "hormone1", ["insulin", "growth hormone"]⟩,
        ⟨"UNII:12345", "hormone2", ["insulin", "other hormone"]⟩], rfl, by decide⟩
  ⟨h.1, h.2.2.1⟩

/-- Witness inputs for C3: the identity-mismatch scenario from the
repository's stage-4 tests (the preferred-label winner is not the expected
entity). -/
def w3cache : String → Option (List LookupResult) := fun s =>
  if s == "insulin" then
    some [⟨"UNII:DIFFERENT", "insulin", ["insulin hormone"]⟩,
      ⟨"CHEBI:5931", "hormone", ["insulin", "growth hormone"]⟩]
  else if s == "IGF1" then some [⟨"NCBIGene:3479", "IGF1", ["IGF1"]⟩]
  else none

def w3edge : Edge :=
  ⟨"CHEBI:5931", "NCBIGene:3479", some "Insulin increases IGF1 expression in liver cells."⟩

/-- Witness for C3: the insulin winner resolves to UNII:DIFFERENT instead
of the expected CHEBI:5931, so the edge is 'bad' with a reason naming both
identifiers. -/
theorem claim_C3_witness :
    (classify_edge w3edge w3cache w2norm w2syn).1 = "bad" ∧
      ("UNII:DIFFERENT" : String) ≠ "CHEBI:5931" ∧
      (classify_edge w3edge w3cache w2norm w2syn).2
        = Reason.identityMismatch "insulin" "CHEBI:5931" "UNII:DIFFERENT" :=
  have h := (claim_C3_identity_check w3edge w3cache w2norm w2syn
    ⟨"CHEBI:5931"⟩ ⟨"NCBIGene:3479"⟩ ["insulin"] ["IGF1"]
    (by decide) rfl rfl rfl rfl rfl rfl (by decide) (by decide) rfl).2
    "insulin" "CHEBI:5931" "UNII:DIFFERENT" rfl
  ⟨h.1, h.2.1, rfl⟩

/-- Witness for C6: a missing subject normalization, an empty synonym list
under the normalized identifier, and invariance under changing the synonym
mapping away from the two normalized keys. -/
theorem claim_C6_witness :
    classify_edge ⟨"A", "B", some "alpha beta"⟩ (fun _ => none) (fun _ => none)
        (fun _ => some ["alpha"])
      = ("bad", Reason.missingNormalization) ∧
    classify_edge ⟨"A", "B", some "alpha beta"⟩ (fun _ => none)
        (fun c => if c == "A" then some ⟨"P:1"⟩ else some ⟨"P:2"⟩)
        (fun c => if c == "P:1" then some [] else some ["beta"])
      = ("bad", Reason.missingSynonyms) ∧
    classify_edge ⟨"A", "B", some "alpha beta"⟩ (fun _ => none)
        (fun c => if c == "A" then some ⟨"P:1"⟩ else some ⟨"P:2"⟩)
        (fun c => if c == "P:1" then some ["alpha"] else if c == "P:2" then some ["beta"]
          else some ["junk"])
      = classify_edge ⟨"A", "B", some "alpha beta"⟩ (fun _ => none)
        (fun c => if c == "A" then some ⟨"P:1"⟩ else some ⟨"P:2"⟩)
        (fun c => if c == "P:1" then some ["alpha"] else if c == "P:2" then some ["beta"]
          else none) :=
  ⟨claim_C6_normalized_synonym_lookup.1 _ _ _ _ (by decide) (Or.inl rfl),
   claim_C6_normalized_synonym_lookup.2.1 _ _ _ _ ⟨"P:1"⟩ ⟨"P:2"⟩ (by decide) rfl rfl
     (Or.inr (Or.inl rfl)),
   claim_C6_normalized_synonym_lookup.2.2 _ _ _ _ _ ⟨"P:1"⟩ ⟨"P:2"⟩ rfl rfl rfl rfl⟩

/-- Witness for C5: the corrected statement evaluated at concrete inputs. -/
theorem claim_C5_witness :
    (["protein", "kinase"] : List String).Nodup ∧
      (find_synonyms_in_text "the protein kinase" ["protein", "kinase"]).Nodup ∧
      ("kinase" ∈ find_synonyms_in_text "the protein kinase" ["protein", "kinase"]) := by
  refine ⟨by decide, claim_C5_text_matcher.2.2.1 "the protein kinase" _ (by decide), ?_⟩
  rw [claim_C5_text_matcher.1 "the protein kinase" ["protein", "kinase"] "kinase"]
  refine ⟨by decide, by decide, by decide⟩

end TMKP
